import Mathlib

/-!
# Verification of the `utils-async` scheduling primitives

A shallow embedding of the library's scheduling engines and leaf utilities:

* number helpers (`isUnsafeNumber`, `ensureSafeDelayMs`, `safeDelayMs`) from
  `src/utils/helpers.ts`, over an explicit model `JSNum` of JavaScript
  double values (`NaN`, the two infinities, finite values as rationals);
* the delay utility `delayMs` from `src/delays/delay.ts`;
* the poll-until-condition utility `waitForCondition` from
  `src/delays/wait-for-condition.ts`, as an event simulation over its two
  timers;
* the synchronous bounded loop `ControlledLoopSync` from
  `src/loops/controlled-loop-sync.ts` (the cycle body, the budget
  projection `haveTimeForAnotherLoop`, and the resumption wrapper);
* the asynchronous controlled loop `ControlledLoopAsync`, both as a
  small-step relation (for the no-overlap invariant) and as a deterministic
  executor (for failure semantics);
* the drift-compensating timer `TimerSync` from `src/loops/timer-sync.ts`,
  as a state machine over its fields (`runId`, `startTime`,
  `_tickIntervalMs`, `_currentIntervalStartTime`, the pending timeout) plus
  a closed form for the scheduled tick instants.

Finite time values and durations are modelled as rationals; error values
carried by exceptions are modelled as opaque natural numbers.
-/

/-- JavaScript `Math.round` for finite doubles: JavaScript rounds half toward
positive infinity, which is `⌊x + 1/2⌋`. -/
def jsRound (x : ℚ) : ℤ := ⌊x + 1/2⌋

/-- JavaScript number values as far as the library can observe them:
`NaN`, the infinities, and finite values (modelled as rationals). -/
inductive JSNum where
  | nan : JSNum
  | posInf : JSNum
  | negInf : JSNum
  | fin (q : ℚ) : JSNum
deriving DecidableEq, Repr

namespace JSNum

/-- Addition of JavaScript numbers: `NaN` is absorbing and the two
infinities annihilate to `NaN`. -/
def add : JSNum → JSNum → JSNum
  | nan, _ => nan
  | _, nan => nan
  | posInf, negInf => nan
  | negInf, posInf => nan
  | posInf, _ => posInf
  | _, posInf => posInf
  | negInf, _ => negInf
  | _, negInf => negInf
  | fin a, fin b => fin (a + b)

/-- Negation of a JavaScript number. -/
def neg : JSNum → JSNum
  | nan => nan
  | posInf => negInf
  | negInf => posInf
  | fin a => fin (-a)

/-- Subtraction of JavaScript numbers. -/
def sub (a b : JSNum) : JSNum := add a (neg b)

/-- Multiplication of JavaScript numbers: `NaN` is absorbing and an
infinity times zero is `NaN`. -/
def mul : JSNum → JSNum → JSNum
  | nan, _ => nan
  | _, nan => nan
  | posInf, posInf => posInf
  | posInf, negInf => negInf
  | negInf, posInf => negInf
  | negInf, negInf => posInf
  | posInf, fin b => if b = 0 then nan else if 0 < b then posInf else negInf
  | fin a, posInf => if a = 0 then nan else if 0 < a then posInf else negInf
  | negInf, fin b => if b = 0 then nan else if 0 < b then negInf else posInf
  | fin a, negInf => if a = 0 then nan else if 0 < a then negInf else posInf
  | fin a, fin b => fin (a * b)

/-- Division of JavaScript numbers: division of a nonzero finite value by
zero gives a signed infinity, `0 / 0` gives `NaN`. -/
def div : JSNum → JSNum → JSNum
  | nan, _ => nan
  | _, nan => nan
  | posInf, posInf => nan
  | posInf, negInf => nan
  | negInf, posInf => nan
  | negInf, negInf => nan
  | posInf, fin b => if 0 ≤ b then posInf else negInf
  | negInf, fin b => if 0 ≤ b then negInf else posInf
  | fin _, posInf => fin 0
  | fin _, negInf => fin 0
  | fin a, fin b =>
      if b = 0 then
        if a = 0 then nan else if 0 < a then posInf else negInf
      else fin (a / b)

/-- Model of `Math.round` on JavaScript numbers: `NaN` and the infinities are
returned unchanged. -/
def round : JSNum → JSNum
  | nan => nan
  | posInf => posInf
  | negInf => negInf
  | fin q => fin (jsRound q)

/-- The strict `<` comparison of JavaScript numbers: any comparison
involving `NaN` is false. -/
def lt : JSNum → JSNum → Bool
  | nan, _ => false
  | _, nan => false
  | posInf, _ => false
  | negInf, negInf => false
  | negInf, _ => true
  | fin _, posInf => true
  | fin _, negInf => false
  | fin a, fin b => decide (a < b)

/-- Model of `Number.isFinite`. -/
def isFinite : JSNum → Bool
  | fin _ => true
  | _ => false

/-- Model of `Math.max` of two JavaScript numbers: `NaN` is absorbing. -/
def max2 : JSNum → JSNum → JSNum
  | nan, _ => nan
  | _, nan => nan
  | posInf, _ => posInf
  | _, posInf => posInf
  | negInf, b => b
  | a, negInf => a
  | fin a, fin b => fin (max a b)

@[simp] lemma add_fin (a b : ℚ) : add (fin a) (fin b) = fin (a + b) := rfl

@[simp] lemma neg_fin (a : ℚ) : neg (fin a) = fin (-a) := rfl

@[simp] lemma sub_fin (a b : ℚ) : sub (fin a) (fin b) = fin (a - b) := by
  simp [sub, sub_eq_add_neg]

@[simp] lemma mul_fin (a b : ℚ) : mul (fin a) (fin b) = fin (a * b) := rfl

lemma div_fin {b : ℚ} (a : ℚ) (hb : b ≠ 0) : div (fin a) (fin b) = fin (a / b) := by
  simp [div, hb]

@[simp] lemma round_fin (a : ℚ) : round (fin a) = fin (jsRound a) := rfl

@[simp] lemma max2_fin (a b : ℚ) : max2 (fin a) (fin b) = fin (max a b) := rfl

@[simp] lemma isFinite_fin (a : ℚ) : isFinite (fin a) = true := rfl

@[simp] lemma lt_fin (a b : ℚ) : lt (fin a) (fin b) = decide (a < b) := rfl

end JSNum

/-- Function `isUnsafeNumber` from `src/utils/helpers.ts`: true when the value is
null-ish (`none`), negative, or not finite.  (With JavaScript comparison
semantics, `NaN < 0` is false; `NaN` is caught by the finiteness check.) -/
def isUnsafeNumber : Option JSNum → Bool
  | none => true
  | some v => v.lt (JSNum.fin 0) || !v.isFinite

/-- Function `ensureSafeDelayMs` from `src/utils/helpers.ts`: throws on an
untrusted duration, otherwise returns `Math.round(ms)`. -/
def ensureSafeDelayMs (ms : JSNum) : Except Unit JSNum :=
  if isUnsafeNumber (some ms) then Except.error () else Except.ok ms.round

/-- Function `safeDelayMs` from `src/utils/helpers.ts`: returns the default on an
untrusted duration, otherwise `Math.round(ms)` (a finite rational). -/
def safeDelayMs (ms : Option JSNum) (defaultValue : ℚ) : ℚ :=
  if isUnsafeNumber ms then defaultValue
  else match ms with
    | some (JSNum.fin q) => (jsRound q : ℚ)
    | _ => defaultValue

/-- Function `safeTickIntervalMs` from `src/loops/timer-sync.ts`:
`safeDelayMs(ms, 1000)`. -/
def safeTickIntervalMs (ms : JSNum) : ℚ := safeDelayMs (some ms) 1000

/-- Function `delayMs` from `src/delays/delay.ts`: validates the duration with
`ensureSafeDelayMs` and (on success) passes the rounded duration to the
timeout primitive; the returned value is the scheduled delay. -/
def delayMs (ms : JSNum) : Except Unit JSNum := ensureSafeDelayMs ms

/-! ## The `TimerSync.scheduleTick` arithmetic (`src/loops/timer-sync.ts`, lines 179–194)

```
const elapsedMs = intervalStartTimeMs - this._currentIntervalStartTime!
const roundedElapsedMs = Math.round(elapsedMs / this._tickIntervalMs) * this._tickIntervalMs
const targetNext = this._currentIntervalStartTime! + roundedElapsedMs + this._tickIntervalMs
const delay = Math.max(0, targetNext - this.globals.performance.now())
```

`_currentIntervalStartTime` is nullable: the raf callback installed by
`scheduleTick` resets it to `null` right before calling `processTick`, and it
is `null` after construction, so it is `null` whenever `scheduleTick` runs
from `start()` or from `processTick`.  In JavaScript arithmetic `null`
coerces to `+0`.  The first model below keeps exact JS number semantics
(needed when the interval is `0`); the second specialises to finite values.
-/

/-- The three derived values of `TimerSync.scheduleTick` under exact
JavaScript number semantics: given `_currentIntervalStartTime` (`c`, nullable),
`_tickIntervalMs` (`T`), the `intervalStartTimeMs` argument (`t`) and
`performance.now()` (`now`), returns
(`roundedElapsedMs`, `targetNext`, `delay`). -/
def scheduleTickNums (c : Option JSNum) (T t now : JSNum) : JSNum × JSNum × JSNum :=
  let c0 := c.getD (JSNum.fin 0)
  let elapsedMs := t.sub c0
  let roundedElapsedMs := ((elapsedMs.div T).round).mul T
  let targetNext := (c0.add roundedElapsedMs).add T
  let delay := JSNum.max2 (JSNum.fin 0) (targetNext.sub now)
  (roundedElapsedMs, targetNext, delay)

/-- The `targetNext` value computed by `TimerSync.scheduleTick` when all
quantities are finite: with `c` the (nullable, `null ↦ 0`) value of
`_currentIntervalStartTime`, `T` the tick interval and `t` the
`intervalStartTimeMs` argument. -/
def nextTargetTime (c : Option ℚ) (T t : ℚ) : ℚ :=
  let c0 := c.getD 0
  c0 + (jsRound ((t - c0) / T) : ℚ) * T + T

/-- The sequence of scheduled tick instants of a `TimerSync` run: the timer
is started at frame time `s` (so `scheduleTick` runs with
`_currentIntervalStartTime = null`), and the callback scheduled for target
instant `timerTargets n` actually fires at `timerTargets n + jit n`
(per-tick scheduling jitter), whereupon `processTick` reschedules — again
with `_currentIntervalStartTime` already reset to `null`. -/
def timerTargets (T s : ℚ) (jit : ℕ → ℚ) : ℕ → ℚ
  | 0 => nextTargetTime none T s
  | n + 1 => nextTargetTime none T (timerTargets T s jit n + jit n)

/-! ## The synchronous bounded loop (`src/loops/controlled-loop-sync.ts`)

The cycle started by `ControlledLoopSync.start` is

```
const loop = () => {
  const startTime = getCurrentFrameTime(this.config.globals!)
  let iterations = 0
  while (this.isRunning) {
    try { this.config.loopFn() }
    catch (error) {
      this.stop()
      try { this.config.onError?.(error) } catch (_) {}
    }
    iterations++
    if (!haveTimeForAnotherLoop(startTime, iterations, this.config)) {
      this.delay(loop)
      break
    }
  }
}
```

The model makes the external behaviour of `loopFn` explicit: the `i`-th call
advances the clock by a cost, may call `stop()`, and may throw a value.  An
`onError` handler is `some hf` when configured; `hf e` returns the value the
handler itself throws, if any (discarded here by the inner `catch (_)`).
Error values are opaque naturals. -/

/-- Function `haveTimeForAnotherLoop` from `src/loops/controlled-loop-sync.ts`:
`difference = performance.now() - startTime`, `average = difference / iterations`,
continue iff `difference + average < maxBlockingTimeMs`. -/
def haveTimeForAnotherLoop (startTime nowTime : ℚ) (iterations : ℕ) (maxBlockingTimeMs : ℚ) :
    Bool :=
  decide ((nowTime - startTime) + (nowTime - startTime) / (iterations : ℚ) < maxBlockingTimeMs)

/-- The observable behaviour of one call of the synchronous `loopFn`. -/
structure SyncOutcome where
  cost : ℚ
  stops : Bool
  throws : Option ℕ
deriving Repr

/-- State of a `ControlledLoopSync` cycle: the clock, the cycle's
`iterations` counter, the total `loopFn` call count, `_isRunning`, and the
list of values passed to `onError`. -/
structure SyncSt where
  time : ℚ
  iters : ℕ
  calls : ℕ
  running : Bool
  errLog : List ℕ
deriving Repr

/-- Method `ControlledLoopSync.stop()`: sets `_isRunning` to `false`. -/
def syncStop (s : SyncSt) : SyncSt := { s with running := false }

/-- The guarded `onError` call of the synchronous loop: when a handler is
configured it is invoked with the caught value (recorded in `errLog`); a
value thrown by the handler itself is discarded by the inner `catch (_)`. -/
def syncInvokeOnError (onError : Option (ℕ → Option ℕ)) (e : ℕ) (s : SyncSt) : SyncSt :=
  match onError with
  | none => s
  | some _ => { s with errLog := s.errLog ++ [e] }

/-- One execution of the `while` body of the cycle (up to but not including
the budget check): call `loopFn`, catch a thrown value (stopping the loop
and routing the value to the guarded `onError`), then `iterations++`. -/
def syncLoopBody (onError : Option (ℕ → Option ℕ)) (ω : ℕ → SyncOutcome) (s : SyncSt) :
    SyncSt :=
  let o := ω s.calls
  let s1 : SyncSt :=
    { s with
      time := s.time + o.cost
      calls := s.calls + 1
      running := s.running && !o.stops }
  let s2 :=
    match o.throws with
    | none => s1
    | some e => syncInvokeOnError onError e (syncStop s1)
  { s2 with iters := s2.iters + 1 }

/-- How a cycle of the synchronous loop ended. -/
inductive CycleExit where
  | yielded : CycleExit
  | exited : CycleExit
  | fuelOut : CycleExit
deriving DecidableEq, Repr

/-- The cycle loop: while `_isRunning`, run the body; after the body, yield
(schedule a resumption and break) unless `haveTimeForAnotherLoop`.
`cycleStart` is the frame time captured at the top of the cycle.  Fuel bounds
the number of iterations modelled; `fuelOut` marks an unfinished run. -/
def runSyncCycle (onError : Option (ℕ → Option ℕ)) (ω : ℕ → SyncOutcome)
    (maxBlockingTimeMs cycleStart : ℚ) : ℕ → SyncSt → SyncSt × CycleExit
  | 0, s => (s, CycleExit.fuelOut)
  | fuel + 1, s =>
    if s.running then
      let s1 := syncLoopBody onError ω s
      if haveTimeForAnotherLoop cycleStart s1.time s1.iters maxBlockingTimeMs then
        runSyncCycle onError ω maxBlockingTimeMs cycleStart fuel s1
      else (s1, CycleExit.yielded)
    else (s, CycleExit.exited)

/-- Method `ControlledLoopSync.delay`'s resumption wrapper:
`requestAnimationFrame(() => { if (this.isRunning) callbackFn() })` — the
scheduled callback re-checks `isRunning` and only then runs a fresh cycle. -/
def syncResume (cycle : SyncSt → SyncSt) (s : SyncSt) : SyncSt :=
  if s.running then cycle s else s

/-! ## The asynchronous controlled loop (`src/loops/controlled-loop-async.ts`)

```
async start(): Promise<void> {
  if (this.isRunning) return
  this._isRunning = true
  while (this.isRunning) {
    try { await this.config.loopFn() }
    catch (error) { this.stop(); this.config.onError?.(error) }
  }
}
```

Two views.  The small-step relation `AStep` covers arbitrary interleavings
with external `stop()` calls (which, in a single-threaded event loop, can
only run while `start` is suspended at its `await`).  The deterministic
executor `asyncExec` runs the loop against a schedule of settle outcomes
and records the settlement of the promise returned by `start()`. -/

/-- Program counter of the `start()` coroutine: at the `while` test, about
to call `loopFn`, suspended at the `await`, or returned. -/
inductive APc where
  | chk : APc
  | call : APc
  | wait : APc
  | halt : APc
deriving DecidableEq, Repr

/-- Small-step state of the asynchronous loop: program counter,
`_isRunning`, number of `loopFn` invocations begun, number settled. -/
structure ASt where
  pc : APc
  running : Bool
  invoked : ℕ
  settled : ℕ
deriving DecidableEq, Repr

/-- The initial state after `start()` sets `_isRunning = true` and enters
the `while`. -/
def asyncInit : ASt := ⟨APc.chk, true, 0, 0⟩

/-- One step of the asynchronous loop.  `extStop` models a `stop()` call by
other code: it can only run while the coroutine is suspended at its
`await` (single-threaded event loop — no preemption between the `while`
test and the `loopFn()` call). -/
inductive AStep : ASt → ASt → Prop
  | whileTrue (s : ASt) : s.pc = APc.chk → s.running = true →
      AStep s { s with pc := APc.call }
  | whileFalse (s : ASt) : s.pc = APc.chk → s.running = false →
      AStep s { s with pc := APc.halt }
  | invoke (s : ASt) : s.pc = APc.call →
      AStep s { s with pc := APc.wait, invoked := s.invoked + 1 }
  | settleOk (s : ASt) : s.pc = APc.wait →
      AStep s { s with pc := APc.chk, settled := s.settled + 1 }
  | settleErr (s : ASt) : s.pc = APc.wait →
      AStep s { s with pc := APc.chk, settled := s.settled + 1, running := false }
  | extStop (s : ASt) : s.pc = APc.wait →
      AStep s { s with running := false }

/-- Reachability from `asyncInit`. -/
def AReach (s : ASt) : Prop := Relation.ReflTransGen AStep asyncInit s

/-- Executor state of the asynchronous loop: `_isRunning`, the number of
`loopFn` invocations, the values passed to `onError`, and how the promise
returned by `start()` settled (`none` while still pending, `Except.ok`
for fulfilment, `Except.error e` for rejection with `e`). -/
structure AExec where
  running : Bool
  invoked : ℕ
  errLog : List ℕ
  result : Option (Except ℕ Unit)
deriving Repr

/-- The executor's initial state (right after `start()` marks running). -/
def aexecInit : AExec := ⟨true, 0, [], none⟩

/-- Deterministic run of the asynchronous loop: `σ n` is how the `n`-th
iteration's awaited result settles, `extStop n` whether external code calls
`stop()` while that iteration is awaited, `onError` the optional handler
(`hf e = some e2` meaning the handler itself throws `e2`, which — being
unguarded here — rejects the promise returned by `start()`). -/
def asyncExec (σ : ℕ → Except ℕ Unit) (extStop : ℕ → Bool)
    (onError : Option (ℕ → Option ℕ)) : ℕ → AExec → AExec
  | 0, s => s
  | fuel + 1, s =>
    if s.result.isSome then s
    else if s.running = false then { s with result := some (Except.ok ()) }
    else
      let n := s.invoked
      let s1 : AExec :=
        { s with
          invoked := n + 1
          running := s.running && !extStop n }
      match σ n with
      | Except.ok _ => asyncExec σ extStop onError fuel s1
      | Except.error e =>
        let s2 : AExec := { s1 with running := false }
        match onError with
        | none => asyncExec σ extStop onError fuel s2
        | some hf =>
          let s3 : AExec := { s2 with errLog := s2.errLog ++ [e] }
          match hf e with
          | none => asyncExec σ extStop onError fuel s3
          | some e2 => { s3 with result := some (Except.error e2) }

/-! ## The drift-compensating timer (`src/loops/timer-sync.ts`)

A state machine over the class fields.  The `n`-th call of `onTick` throws
`θ n` (when `some`); an `onError` handler, when configured, is guarded by
`try ... catch (_) {}` so its own thrown value is discarded. -/

/-- The fields of a `TimerSync` instance: `_runId`, `_startTime`,
`_tickIntervalMs`, `_currentIntervalStartTime`, the pending `setTimeout`
(recording the `runId` captured by its closure; `none` when
`_currentIntervalTimeoutId` is `null`), the number of `onTick` calls made,
and the values passed to `onError`. -/
structure TimerSt where
  runId : ℕ
  startTime : Option ℚ
  intervalMs : ℚ
  curC : Option ℚ
  pending : Option ℕ
  ticks : ℕ
  errLog : List ℕ
deriving DecidableEq, Repr

/-- A freshly constructed timer with the given (already validated)
interval. -/
def timerInit (intervalMs : ℚ) : TimerSt :=
  ⟨0, none, intervalMs, none, none, 0, []⟩

/-- Getter `TimerSync.isRunning`: `_startTime != null`. -/
def TimerSt.isRunning (st : TimerSt) : Bool := st.startTime.isSome

/-- Method `TimerSync.scheduleTick(t)`: computes `targetNext` (see
`nextTargetTime`), stores `targetNext - _tickIntervalMs` in
`_currentIntervalStartTime`, and installs the timeout whose closure
captures the current `_runId`. -/
def timerScheduleTick (st : TimerSt) (t : ℚ) : TimerSt :=
  let targetNext := nextTargetTime st.curC st.intervalMs t
  { st with
    curC := some (targetNext - st.intervalMs)
    pending := some st.runId }

/-- Method `TimerSync.stop()`: clears `_startTime` (and nothing else). -/
def timerStop (st : TimerSt) : TimerSt := { st with startTime := none }

/-- The guarded `onError` call of the timer (`catch (_)` discards a value
thrown by the handler itself). -/
def timerInvokeOnError (onError : Option (ℕ → Option ℕ)) (e : ℕ) (st : TimerSt) : TimerSt :=
  match onError with
  | none => st
  | some _ => { st with errLog := st.errLog ++ [e] }

/-- Method `TimerSync.processTick(t, rid)`: inert unless the timer is running and
the captured `runId` is current; otherwise calls `onTick` and either
reschedules or — on a throw — stops and routes the value to the guarded
`onError`. -/
def timerProcessTick (θ : ℕ → Option ℕ) (onError : Option (ℕ → Option ℕ))
    (st : TimerSt) (t : ℚ) (rid : ℕ) : TimerSt :=
  if st.isRunning && decide (rid = st.runId) then
    let st1 : TimerSt := { st with ticks := st.ticks + 1 }
    match θ st.ticks with
    | none => timerScheduleTick st1 t
    | some e => timerInvokeOnError onError e (timerStop st1)
  else st

/-- The pending timeout/raf pair firing at frame time `t`: the raf callback
first resets `_currentIntervalStartTime` and `_currentIntervalTimeoutId` to
`null`, then calls `processTick` with the `runId` captured at scheduling
time. -/
def timerFire (θ : ℕ → Option ℕ) (onError : Option (ℕ → Option ℕ))
    (st : TimerSt) (t : ℚ) : TimerSt :=
  match st.pending with
  | none => st
  | some rid => timerProcessTick θ onError { st with curC := none, pending := none } t rid

/-- Method `TimerSync.start()`: no-op when running, otherwise increments `_runId`,
records `_startTime` from the current frame time, and schedules the first
tick against it. -/
def timerStart (st : TimerSt) (now : ℚ) : TimerSt :=
  if st.isRunning then st
  else timerScheduleTick { st with runId := st.runId + 1, startTime := some now } now

/-- Method `TimerSync.setTargetTickIntervalMs(ms)`: validates the value via
`safeTickIntervalMs`; when running with a pending timeout, cancels it and
reschedules from the pending interval's own start time
(`_currentIntervalStartTime`, non-null here). -/
def timerSetTargetTickIntervalMs (st : TimerSt) (ms : JSNum) : TimerSt :=
  let st1 : TimerSt := { st with intervalMs := safeTickIntervalMs ms }
  if !st1.isRunning || st1.pending.isNone then st1
  else timerScheduleTick { st1 with pending := none } (st1.curC.getD 0)

/-- External events driving a timer instance. -/
inductive TimerEv where
  | start (now : ℚ) : TimerEv
  | stop : TimerEv
  | fire (t : ℚ) : TimerEv
  | setInterval (ms : JSNum) : TimerEv
deriving Repr

/-- Apply one event. -/
def timerStepEv (θ : ℕ → Option ℕ) (onError : Option (ℕ → Option ℕ))
    (st : TimerSt) : TimerEv → TimerSt
  | TimerEv.start now => timerStart st now
  | TimerEv.stop => timerStop st
  | TimerEv.fire t => timerFire θ onError st t
  | TimerEv.setInterval ms => timerSetTargetTickIntervalMs st ms

/-- Run a list of events. -/
def timerRun (θ : ℕ → Option ℕ) (onError : Option (ℕ → Option ℕ)) :
    List TimerEv → TimerSt → TimerSt
  | [], st => st
  | ev :: evs, st => timerRun θ onError evs (timerStepEv θ onError st ev)

/-! ## `waitForCondition` (`src/delays/wait-for-condition.ts`)

The operation installs an interval timer (period `intervalMs`, validated,
default 16) and a timeout timer (`timeoutMs`, validated, default 1000).
The interval callback evaluates the predicate: truthy → clear both timers
and resolve; throw → clear both timers and reject with the thrown value;
falsy → keep polling.  The timeout callback clears the interval and rejects
with the Timeout error.  Both timers are created at time 0; when both are
due at the same instant the interval fires first (it was registered
first). -/

/-- Outcome of one predicate evaluation. -/
inductive PredOut where
  | truthy (v : ℕ) : PredOut
  | falsy : PredOut
  | throws (e : ℕ) : PredOut
deriving DecidableEq, Repr

/-- How the promise returned by `waitForCondition` settled. -/
inductive WaitRes where
  | resolved (v : ℕ) : WaitRes
  | errored (e : ℕ) : WaitRes
  | timedOut : WaitRes
deriving DecidableEq, Repr

/-- Simulation state: the clock, the interval's next fire time (`none` once
cleared), the pending timeout (`none` once cleared or fired), the number of
predicate calls, and the settlement. -/
structure WaitSt where
  time : ℚ
  intervalNext : Option ℚ
  timeoutAt : Option ℚ
  callIdx : ℕ
  result : Option WaitRes
deriving DecidableEq, Repr

/-- Initial state: both timers installed at time 0. -/
def waitInit (intervalMs timeoutMs : ℚ) : WaitSt :=
  ⟨0, some intervalMs, some timeoutMs, 0, none⟩

/-- Fire the next due timer (interval first on ties). -/
def waitStep (π : ℕ → PredOut) (intervalMs : ℚ) (st : WaitSt) : WaitSt :=
  match st.intervalNext, st.timeoutAt with
  | some ti, some tt =>
    if ti ≤ tt then
      match π st.callIdx with
      | PredOut.falsy =>
        { st with
          time := ti
          intervalNext := some (ti + intervalMs)
          callIdx := st.callIdx + 1 }
      | PredOut.truthy v =>
        { st with
          time := ti
          intervalNext := none
          timeoutAt := none
          callIdx := st.callIdx + 1
          result := some (WaitRes.resolved v) }
      | PredOut.throws e =>
        { st with
          time := ti
          intervalNext := none
          timeoutAt := none
          callIdx := st.callIdx + 1
          result := some (WaitRes.errored e) }
    else
      { st with
        time := tt
        intervalNext := none
        timeoutAt := none
        result := some WaitRes.timedOut }
  | _, _ => st

/-- Iterate the simulation. -/
def runWait (π : ℕ → PredOut) (intervalMs : ℚ) : ℕ → WaitSt → WaitSt
  | 0, st => st
  | fuel + 1, st => runWait π intervalMs fuel (waitStep π intervalMs st)

/-- Function `waitForCondition(conditionFn, config)`: validates the two configured
durations with `safeDelayMs` against the defaults (16 and 1000) and runs
the two timers. -/
def waitForConditionRun (π : ℕ → PredOut) (intervalMs timeoutMs : Option JSNum)
    (fuel : ℕ) : WaitSt :=
  let intervalDuration := safeDelayMs intervalMs 16
  let timeoutDuration := safeDelayMs timeoutMs 1000
  runWait π intervalDuration fuel (waitInit intervalDuration timeoutDuration)

/-- The inductive invariant of the asynchronous loop: settled results never
outnumber invocations, at most one invocation is outstanding, the coroutine
is suspended at its `await` exactly while one is outstanding, and it is
about to call `loopFn` only while running with no invocation outstanding. -/
def AInv (s : ASt) : Prop :=
  s.settled ≤ s.invoked ∧ s.invoked ≤ s.settled + 1 ∧
  (s.pc = APc.wait ↔ s.invoked = s.settled + 1) ∧
  (s.pc = APc.call → s.running = true ∧ s.invoked = s.settled)

/-- On finite inputs with a nonzero interval, the exact-JS computation of
`scheduleTick` agrees with the rational model `nextTargetTime`. -/
lemma scheduleTickNums_fin (c : Option ℚ) (T t now : ℚ) (hT : T ≠ 0) :
    scheduleTickNums (c.map JSNum.fin) (.fin T) (.fin t) (.fin now) =
      (.fin ((jsRound ((t - c.getD 0) / T) : ℚ) * T),
       .fin (nextTargetTime c T t),
       .fin (max 0 (nextTargetTime c T t - now))) := by
  cases c <;>
    simp [scheduleTickNums, nextTargetTime, JSNum.div_fin _ hT, Prod.ext_iff, max_comm]

lemma jsRound_intCast_add (k : ℤ) (x : ℚ) : jsRound ((k : ℚ) + x) = k + jsRound x := by
  simp [jsRound, add_assoc, Int.floor_int_add]

lemma jsRound_eq_zero {x : ℚ} (h1 : -(1/2) ≤ x) (h2 : x < 1/2) : jsRound x = 0 := by
  rw [jsRound, Int.floor_eq_zero_iff]
  constructor
  · linarith
  · linarith


/-! ## Claim C8 — `delayMs` duration validation -/

/-- C8 (counterexample): the claim says `delayMs` fails for every input
that is not a positive finite number.  But `0` is not positive, and
`delayMs(0)` does not fail: `isUnsafeNumber` only rejects null-ish,
negative, or non-finite values, so the call succeeds and schedules a 0ms
timeout. -/
theorem c8_zero_duration_counterexample :
    ¬ ((0 : ℚ) < 0) ∧ delayMs (JSNum.fin 0) = Except.ok (JSNum.fin 0) := by
  constructor
  · norm_num
  · norm_num [delayMs, ensureSafeDelayMs, isUnsafeNumber, JSNum.round, jsRound]

/-- C8 (amended): `delayMs(duration)` validates that the duration is a
non-negative finite number — null-ish, negative, and non-finite inputs all
fail with the InvalidDuration error, zero is accepted — and for every valid
input it schedules the completion after the duration rounded to the nearest
millisecond (`Math.round`, half toward positive infinity). -/
theorem c8_delay_validation (ms : JSNum) :
    (∀ q : ℚ, ms = JSNum.fin q → 0 ≤ q →
      delayMs ms = Except.ok (JSNum.fin ((jsRound q : ℤ) : ℚ))) ∧
    ((∀ q : ℚ, 0 ≤ q → ms ≠ JSNum.fin q) → delayMs ms = Except.error ()) := by
  cases ms with
  | nan =>
    refine ⟨fun q h => absurd h (by simp), fun _ => ?_⟩
    simp [delayMs, ensureSafeDelayMs, isUnsafeNumber, JSNum.isFinite, JSNum.lt]
  | posInf =>
    refine ⟨fun q h => absurd h (by simp), fun _ => ?_⟩
    simp [delayMs, ensureSafeDelayMs, isUnsafeNumber, JSNum.isFinite, JSNum.lt]
  | negInf =>
    refine ⟨fun q h => absurd h (by simp), fun _ => ?_⟩
    simp [delayMs, ensureSafeDelayMs, isUnsafeNumber, JSNum.isFinite, JSNum.lt]
  | fin q =>
    constructor
    · rintro q' hq' hq0
      cases hq'
      simp [delayMs, ensureSafeDelayMs, isUnsafeNumber, not_lt.mpr hq0]
    · intro h
      have hq : q < 0 := by
        by_contra hc
        exact h q (not_lt.mp hc) rfl
      simp [delayMs, ensureSafeDelayMs, isUnsafeNumber, hq]

/-- C8 (witness): `delayMs(3/2)` succeeds and schedules a 2ms timeout;
`delayMs(NaN)` fails with the InvalidDuration error. -/
theorem c8_delay_validation_witness :
    delayMs (JSNum.fin (3/2)) = Except.ok (JSNum.fin 2) ∧
    delayMs JSNum.nan = Except.error () := by
  constructor
  · have h := (c8_delay_validation (JSNum.fin (3/2))).1 (3/2) rfl (by norm_num)
    rw [h]
    norm_num [jsRound]
  · exact (c8_delay_validation JSNum.nan).2 (fun q _ h => by cases h)

/-! ## Claim C10 — zero tick interval yields a non-finite schedule -/

/-- C10: `TimerSync`'s interval validation accepts `0` (only null-ish,
negative, or non-finite values are replaced by the 1000ms default), and with
a zero interval the `scheduleTick` arithmetic — which divides the elapsed
time by the interval — produces `NaN` for the rounded elapsed value, the
next target instant, and the computed delay, whatever the current times are;
with a strictly positive interval and finite inputs all three are finite. -/
theorem c10_zero_interval_non_finite_schedule :
    safeTickIntervalMs (JSNum.fin 0) = 0 ∧
    (∀ t now : ℚ,
      scheduleTickNums none (JSNum.fin 0) (JSNum.fin t) (JSNum.fin now) =
        (JSNum.nan, JSNum.nan, JSNum.nan)) ∧
    (∀ (c : Option ℚ) (T t now : ℚ), 0 < T →
      (scheduleTickNums (c.map JSNum.fin) (JSNum.fin T) (JSNum.fin t)
          (JSNum.fin now)).1.isFinite = true ∧
      (scheduleTickNums (c.map JSNum.fin) (JSNum.fin T) (JSNum.fin t)
          (JSNum.fin now)).2.1.isFinite = true ∧
      (scheduleTickNums (c.map JSNum.fin) (JSNum.fin T) (JSNum.fin t)
          (JSNum.fin now)).2.2.isFinite = true) := by
  refine ⟨?_, ?_, ?_⟩
  · norm_num [safeTickIntervalMs, safeDelayMs, isUnsafeNumber, jsRound]
  · intro t now
    rcases lt_trichotomy t 0 with ht | ht | ht
    · simp [scheduleTickNums, JSNum.div, JSNum.round, JSNum.mul, JSNum.add, JSNum.sub,
        JSNum.neg, JSNum.max2, ht.ne, not_lt.mpr ht.le]
    · subst ht
      simp [scheduleTickNums, JSNum.div, JSNum.round, JSNum.mul, JSNum.add, JSNum.sub,
        JSNum.neg, JSNum.max2]
    · simp [scheduleTickNums, JSNum.div, JSNum.round, JSNum.mul, JSNum.add, JSNum.sub,
        JSNum.neg, JSNum.max2, ht.ne', ht]
  · intro c T t now hT
    rw [scheduleTickNums_fin c T t now hT.ne']
    simp

/-! ## Claim C1 — the timer's tick grid -/

/-- C1 (counterexample): per the claim, a timer started at frame time 500
with target interval 1000 should schedule its first tick at
`startTime + T = 1500`.  But `scheduleTick` measures elapsed time against
`_currentIntervalStartTime` — which is `null` (coerced to 0) at that point —
so it computes `Math.round(500/1000)*1000 + 1000 = 2000`. -/
theorem c1_start_anchor_counterexample :
    timerTargets 1000 500 (fun _ => 0) 0 = 2000 ∧ (2000 : ℚ) ≠ 500 + 1000 := by
  constructor
  · show nextTargetTime none 1000 500 = 2000
    norm_num [nextTargetTime, jsRound]
  · norm_num

/-- C1 (amended): the scheduled tick instants of a run started at frame
time `s` with target interval `T > 0` lie on the absolute grid of multiples
of `T` (the effective anchor is the clock's origin, since
`_currentIntervalStartTime` is `null` whenever a tick is scheduled), not on
`s + kT`: as long as each tick fires within `[-T/2, T/2)` of its scheduled
instant, the `n`-th scheduled instant is `(round(s/T) + n + 1) · T`, so
small per-tick jitter never shifts the grid. -/
theorem c1_tick_grid_multiples_of_interval (T s : ℚ) (jit : ℕ → ℚ) (hT : 0 < T)
    (hjl : ∀ k, -(T/2) ≤ jit k) (hjr : ∀ k, jit k < T/2) (n : ℕ) :
    timerTargets T s jit n = ((jsRound (s / T) + (n : ℤ) + 1 : ℤ) : ℚ) * T := by
  induction n with
  | zero =>
    show nextTargetTime none T s = _
    simp only [nextTargetTime, Option.getD_none, sub_zero]
    push_cast
    ring
  | succ n ih =>
    show nextTargetTime none T (timerTargets T s jit n + jit n) = _
    rw [ih]
    have hj0 : jsRound (jit n / T) = 0 := by
      apply jsRound_eq_zero
      · rw [neg_le, ← neg_div, div_le_iff₀ hT]
        have := hjl n
        linarith
      · rw [div_lt_iff₀ hT]
        have := hjr n
        linarith
    simp only [nextTargetTime, Option.getD_none, sub_zero]
    have hdiv :
        (((jsRound (s / T) + (n : ℤ) + 1 : ℤ) : ℚ) * T + jit n) / T =
          ((jsRound (s / T) + (n : ℤ) + 1 : ℤ) : ℚ) + jit n / T := by
      rw [add_div, mul_div_assoc, div_self hT.ne', mul_one]
    rw [hdiv, jsRound_intCast_add, hj0]
    push_cast
    ring

/-- C1 (witness): with `T = 1000`, start time 500 and zero jitter, the
third scheduled instant is `(round(1/2) + 2 + 1) · 1000 = 4000`. -/
theorem c1_tick_grid_multiples_of_interval_witness :
    timerTargets 1000 500 (fun _ => 0) 2 = 4000 := by
  have h := c1_tick_grid_multiples_of_interval 1000 500 (fun _ => 0) (by norm_num)
    (fun k => by norm_num) (fun k => by norm_num) 2
  rw [h]
  norm_num [jsRound]

/-- C10 (witness): at interval 0 and times `t = 3`, `now = 4` the schedule
is `NaN`; at interval 5 with finite times it is finite. -/
theorem c10_zero_interval_non_finite_schedule_witness :
    scheduleTickNums none (JSNum.fin 0) (JSNum.fin 3) (JSNum.fin 4) =
      (JSNum.nan, JSNum.nan, JSNum.nan) ∧
    (scheduleTickNums (Option.map JSNum.fin (some 10)) (JSNum.fin 5) (JSNum.fin 3)
        (JSNum.fin 4)).2.1.isFinite = true := by
  refine ⟨c10_zero_interval_non_finite_schedule.2.1 3 4, ?_⟩
  exact (c10_zero_interval_non_finite_schedule.2.2 (some 10) 5 3 4 (by norm_num)).2.1

/-! ## Claim C2 — the synchronous loop's budget projection -/

lemma runSyncCycle_succ (onError : Option (ℕ → Option ℕ)) (ω : ℕ → SyncOutcome)
    (B start : ℚ) (fuel : ℕ) (s : SyncSt) :
    runSyncCycle onError ω B start (fuel + 1) s =
      if s.running then
        if haveTimeForAnotherLoop start (syncLoopBody onError ω s).time
            (syncLoopBody onError ω s).iters B then
          runSyncCycle onError ω B start fuel (syncLoopBody onError ω s)
        else (syncLoopBody onError ω s, CycleExit.yielded)
      else (s, CycleExit.exited) := rfl

lemma runSyncCycle_succ_running (onError : Option (ℕ → Option ℕ)) (ω : ℕ → SyncOutcome)
    (B start : ℚ) (fuel : ℕ) (t : ℚ) (j c : ℕ) (L : List ℕ) :
    runSyncCycle onError ω B start (fuel + 1) ⟨t, j, c, true, L⟩ =
      if haveTimeForAnotherLoop start (syncLoopBody onError ω ⟨t, j, c, true, L⟩).time
          (syncLoopBody onError ω ⟨t, j, c, true, L⟩).iters B then
        runSyncCycle onError ω B start fuel (syncLoopBody onError ω ⟨t, j, c, true, L⟩)
      else (syncLoopBody onError ω ⟨t, j, c, true, L⟩, CycleExit.yielded) := rfl

lemma runSyncCycle_succ_stopped (onError : Option (ℕ → Option ℕ)) (ω : ℕ → SyncOutcome)
    (B start : ℚ) (fuel : ℕ) (t : ℚ) (j c : ℕ) (L : List ℕ) :
    runSyncCycle onError ω B start (fuel + 1) ⟨t, j, c, false, L⟩ =
      (⟨t, j, c, false, L⟩, CycleExit.exited) := rfl

lemma syncLoopBody_ok (onError : Option (ℕ → Option ℕ)) (ω : ℕ → SyncOutcome)
    (t : ℚ) (j c : ℕ) (L : List ℕ)
    (h1 : (ω c).stops = false) (h2 : (ω c).throws = none) :
    syncLoopBody onError ω ⟨t, j, c, true, L⟩ =
      ⟨t + (ω c).cost, j + 1, c + 1, true, L⟩ := by
  simp [syncLoopBody, h1, h2]

/-- In a cycle where every `loopFn` call returns normally (no throw, no
`stop()`), a completed run from iteration `j` yields at some iteration
`k > j` with the clock advanced by the intervening costs, the budget check
false at `k` and true at every iteration strictly between. -/
lemma runSyncCycle_all_ok (onError : Option (ℕ → Option ℕ)) (ω : ℕ → SyncOutcome)
    (B start : ℚ) (c0 : ℕ) (L : List ℕ)
    (Hok : ∀ i, (ω i).stops = false ∧ (ω i).throws = none) :
    ∀ (fuel j : ℕ) (st : SyncSt) (ex : CycleExit),
      runSyncCycle onError ω B start fuel
        ⟨start + ∑ i ∈ Finset.range j, (ω (c0 + i)).cost, j, c0 + j, true, L⟩ = (st, ex) →
      ex ≠ CycleExit.fuelOut →
      ∃ k, j < k ∧
        st = ⟨start + ∑ i ∈ Finset.range k, (ω (c0 + i)).cost, k, c0 + k, true, L⟩ ∧
        ex = CycleExit.yielded ∧
        haveTimeForAnotherLoop start
          (start + ∑ i ∈ Finset.range k, (ω (c0 + i)).cost) k B = false ∧
        ∀ m, j < m → m < k →
          haveTimeForAnotherLoop start
            (start + ∑ i ∈ Finset.range m, (ω (c0 + i)).cost) m B = true := by
  intro fuel
  induction fuel with
  | zero =>
    intro j st ex h hex
    simp only [runSyncCycle, Prod.mk.injEq] at h
    exact absurd h.2.symm hex
  | succ fuel ih =>
    intro j st ex h hex
    have hbody := syncLoopBody_ok onError ω
      (start + ∑ i ∈ Finset.range j, (ω (c0 + i)).cost) j (c0 + j) L
      (Hok (c0 + j)).1 (Hok (c0 + j)).2
    have hsum :
        start + (∑ i ∈ Finset.range j, (ω (c0 + i)).cost) + (ω (c0 + j)).cost =
          start + ∑ i ∈ Finset.range (j + 1), (ω (c0 + i)).cost := by
      rw [Finset.sum_range_succ, add_assoc]
    rw [runSyncCycle_succ_running, hbody] at h
    dsimp only at h
    rw [hsum] at h
    by_cases hb : haveTimeForAnotherLoop start
        (start + ∑ i ∈ Finset.range (j + 1), (ω (c0 + i)).cost) (j + 1) B = true
    · rw [if_pos hb] at h
      obtain ⟨k, hk1, hk2, hk3, hk4, hk5⟩ := ih (j + 1) st ex h hex
      refine ⟨k, by omega, hk2, hk3, hk4, ?_⟩
      intro m hm1 hm2
      rcases Nat.lt_or_ge m (j + 1) with hm | hm
      · omega
      · rcases Nat.eq_or_lt_of_le hm with hm' | hm'
        · rw [← hm']
          exact hb
        · exact hk5 m hm' hm2
    · rw [if_neg hb] at h
      rw [Prod.mk.injEq] at h
      refine ⟨j + 1, Nat.lt_succ_self j, h.1.symm, h.2.symm, ?_, ?_⟩
      · simpa using hb
      · intro m hm1 hm2
        omega

/-- C2 (counterexample): the claim bounds the cycle's elapsed time at the
yield point by `maxBlockingTimeMs` plus one *average* iteration cost.  With
budget 10 and per-call costs 1 then 100 (both calls returning normally),
the cycle runs 2 iterations and yields with elapsed time 101, while the
budget plus the average `101/2` is only `60.5`. -/
theorem c2_budget_average_bound_counterexample :
    runSyncCycle none (fun i => ⟨if i = 0 then (1 : ℚ) else 100, false, none⟩) 10 0 5
        ⟨0, 0, 0, true, []⟩ =
      (⟨101, 2, 2, true, []⟩, CycleExit.yielded) ∧
    ¬ (((101 : ℚ) - 0) ≤ 10 + ((101 : ℚ) - 0) / 2) := by
  constructor
  · rw [runSyncCycle_succ_running]
    have h0 : syncLoopBody none (fun i => ⟨if i = 0 then (1 : ℚ) else 100, false, none⟩)
        ⟨0, 0, 0, true, []⟩ = ⟨1, 1, 1, true, []⟩ := by
      norm_num [syncLoopBody]
    rw [h0]
    have hc0 : haveTimeForAnotherLoop 0 (SyncSt.time ⟨1, 1, 1, true, []⟩)
        (SyncSt.iters ⟨1, 1, 1, true, []⟩) 10 = true := by
      norm_num [haveTimeForAnotherLoop]
    rw [if_pos hc0, runSyncCycle_succ_running]
    have h1 : syncLoopBody none (fun i => ⟨if i = 0 then (1 : ℚ) else 100, false, none⟩)
        ⟨1, 1, 1, true, []⟩ = ⟨101, 2, 2, true, []⟩ := by
      norm_num [syncLoopBody]
    rw [h1]
    have hc1 : ¬ haveTimeForAnotherLoop 0 (SyncSt.time ⟨101, 2, 2, true, []⟩)
        (SyncSt.iters ⟨101, 2, 2, true, []⟩) 10 = true := by
      norm_num [haveTimeForAnotherLoop]
    rw [if_neg hc1]
  · norm_num

/-- C2 (amended): in every completed cycle of `ControlledLoopSync` in which
`loopFn` neither throws nor calls `stop()`, `loopFn` is invoked at least
once; the loop yields exactly when `elapsed + elapsed/iterations <
maxBlockingTimeMs` first fails, having continued through every iteration at
which it held; and the elapsed time at the yield point is at most the
budget plus the cost of the *final* iteration (not the average): each
continued-into iteration starts below budget and can overshoot it by at
most its own cost. -/
theorem c2_cycle_budget_bound (onError : Option (ℕ → Option ℕ)) (ω : ℕ → SyncOutcome)
    (B start : ℚ) (c0 : ℕ) (L : List ℕ) (fuel : ℕ) (st : SyncSt) (ex : CycleExit)
    (Hok : ∀ i, (ω i).stops = false ∧ (ω i).throws = none)
    (Hcost : ∀ i, 0 ≤ (ω i).cost) (hB : 0 < B)
    (hrun : runSyncCycle onError ω B start fuel ⟨start, 0, c0, true, L⟩ = (st, ex))
    (hex : ex ≠ CycleExit.fuelOut) :
    1 ≤ st.iters ∧ st.calls = c0 + st.iters ∧ ex = CycleExit.yielded ∧
    haveTimeForAnotherLoop start st.time st.iters B = false ∧
    (∀ m, 0 < m → m < st.iters →
      haveTimeForAnotherLoop start (start + ∑ i ∈ Finset.range m, (ω (c0 + i)).cost) m B
        = true) ∧
    st.time - start ≤ B + (ω (c0 + (st.iters - 1))).cost := by
  have hrun' : runSyncCycle onError ω B start fuel
      ⟨start + ∑ i ∈ Finset.range 0, (ω (c0 + i)).cost, 0, c0 + 0, true, L⟩ = (st, ex) := by
    simpa using hrun
  obtain ⟨k, hk1, hk2, hk3, hk4, hk5⟩ :=
    runSyncCycle_all_ok onError ω B start c0 L Hok fuel 0 st ex hrun' hex
  subst hk2
  obtain ⟨k', rfl⟩ : ∃ k'', k = k'' + 1 := ⟨k - 1, by omega⟩
  have hpreB : (∑ i ∈ Finset.range k', (ω (c0 + i)).cost) ≤ B := by
    rcases Nat.eq_zero_or_pos k' with hk0 | hk0
    · subst hk0
      simpa using hB.le
    · have h5 := hk5 k' hk0 (Nat.lt_succ_self k')
      simp only [haveTimeForAnotherLoop, decide_eq_true_eq] at h5
      have hnn : 0 ≤ ∑ i ∈ Finset.range k', (ω (c0 + i)).cost :=
        Finset.sum_nonneg fun i _ => Hcost (c0 + i)
      have hkpos : (0 : ℚ) < (k' : ℚ) := by exact_mod_cast hk0
      have hdiv : 0 ≤ (∑ i ∈ Finset.range k', (ω (c0 + i)).cost) / (k' : ℚ) :=
        div_nonneg hnn hkpos.le
      have heq : start + (∑ i ∈ Finset.range k', (ω (c0 + i)).cost) - start =
          ∑ i ∈ Finset.range k', (ω (c0 + i)).cost := by ring
      rw [heq] at h5
      linarith
  refine ⟨by show 1 ≤ k' + 1; omega, rfl, hk3, hk4, fun m hm1 hm2 => hk5 m hm1 hm2, ?_⟩
  show start + (∑ i ∈ Finset.range (k' + 1), (ω (c0 + i)).cost) - start ≤
    B + (ω (c0 + (k' + 1 - 1))).cost
  rw [Finset.sum_range_succ]
  have hidx : k' + 1 - 1 = k' := rfl
  rw [hidx]
  linarith

/-- C2 (witness): budget 3, uniform cost 1 — the cycle runs twice
(`1 + 1/1 < 3` holds after the first call, `2 + 2/2 < 3` fails after the
second) and the elapsed time 2 is within budget plus the final cost. -/
theorem c2_cycle_budget_bound_witness :
    (1 : ℕ) ≤ 2 ∧ ((2 : ℚ) - 0 ≤ 3 + 1) := by
  have hrun : runSyncCycle none (fun _ => ⟨(1 : ℚ), false, none⟩) 3 0 5 ⟨0, 0, 0, true, []⟩ =
      (⟨2, 2, 2, true, []⟩, CycleExit.yielded) := by
    rw [runSyncCycle_succ_running]
    have h0 : syncLoopBody none (fun _ => ⟨(1 : ℚ), false, none⟩) ⟨0, 0, 0, true, []⟩ =
        ⟨1, 1, 1, true, []⟩ := by
      norm_num [syncLoopBody]
    rw [h0]
    have hc0 : haveTimeForAnotherLoop 0 (SyncSt.time ⟨1, 1, 1, true, []⟩)
        (SyncSt.iters ⟨1, 1, 1, true, []⟩) 3 = true := by
      norm_num [haveTimeForAnotherLoop]
    rw [if_pos hc0, runSyncCycle_succ_running]
    have h1 : syncLoopBody none (fun _ => ⟨(1 : ℚ), false, none⟩) ⟨1, 1, 1, true, []⟩ =
        ⟨2, 2, 2, true, []⟩ := by
      norm_num [syncLoopBody]
    rw [h1]
    have hc1 : ¬ haveTimeForAnotherLoop 0 (SyncSt.time ⟨2, 2, 2, true, []⟩)
        (SyncSt.iters ⟨2, 2, 2, true, []⟩) 3 = true := by
      norm_num [haveTimeForAnotherLoop]
    rw [if_neg hc1]
  have h := c2_cycle_budget_bound none (fun _ => ⟨(1 : ℚ), false, none⟩) 3 0 0 [] 5
    ⟨2, 2, 2, true, []⟩ CycleExit.yielded (fun _ => ⟨rfl, rfl⟩) (fun _ => by norm_num)
    (by norm_num) hrun (by simp)
  refine ⟨h.1, ?_⟩
  simpa using h.2.2.2.2.2

/-! ## Claim C3 — no overlapping `loopFn` invocations in the async loop -/

lemma AStep_inv {s s' : ASt} (h : AStep s s') (hs : AInv s) : AInv s' := by
  obtain ⟨h1, h2, h3, h4⟩ := hs
  cases h with
  | whileTrue hpc hrun =>
    have hne : s.invoked ≠ s.settled + 1 := fun he => by
      have hw := h3.mpr he
      rw [hpc] at hw
      cases hw
    simp only [AInv]
    refine ⟨h1, h2, ?_, ?_⟩
    · constructor
      · intro hc
        simp at hc
      · intro he
        exact absurd he hne
    · intro _
      exact ⟨hrun, by omega⟩
  | whileFalse hpc hrun =>
    have hne : s.invoked ≠ s.settled + 1 := fun he => by
      have hw := h3.mpr he
      rw [hpc] at hw
      cases hw
    simp only [AInv]
    refine ⟨h1, h2, ?_, ?_⟩
    · constructor
      · intro hc
        simp at hc
      · intro he
        exact absurd he hne
    · intro hc
      simp at hc
  | invoke hpc =>
    obtain ⟨hrun, heq⟩ := h4 hpc
    simp only [AInv]
    refine ⟨by omega, by omega, by simp [heq], ?_⟩
    intro hc
    simp at hc
  | settleOk hpc =>
    have heq := h3.mp hpc
    simp only [AInv]
    refine ⟨by omega, by omega, ?_, ?_⟩
    · constructor
      · intro hc
        simp at hc
      · intro he
        omega
    · intro hc
      simp at hc
  | settleErr hpc =>
    have heq := h3.mp hpc
    simp only [AInv]
    refine ⟨by omega, by omega, ?_, ?_⟩
    · constructor
      · intro hc
        simp at hc
      · intro he
        omega
    · intro hc
      simp at hc
  | extStop hpc =>
    simp only [AInv]
    refine ⟨h1, h2, h3, ?_⟩
    intro hc
    rw [hpc] at hc
    cases hc

lemma AReach_inv {s : ASt} (h : AReach s) : AInv s := by
  induction h with
  | refl =>
    refine ⟨le_refl 0, by simp [asyncInit], ?_, ?_⟩
    · simp [asyncInit]
    · intro hc
      simp [asyncInit] at hc
  | tail _ hstep ih => exact AStep_inv hstep ih

/-- C3: in every reachable execution of `ControlledLoopAsync`, whenever a
step begins a new `loopFn` invocation (the invocation count increases), all
previously begun invocations have already settled and the loop is still
running at that point; afterward at most one invocation is outstanding. -/
theorem c3_no_overlapping_invocations (s s' : ASt) (hr : AReach s) (hstep : AStep s s')
    (hinc : s'.invoked = s.invoked + 1) :
    s.settled = s.invoked ∧ s.running = true ∧ s'.invoked ≤ s'.settled + 1 := by
  have hinv := AReach_inv hr
  cases hstep with
  | whileTrue hpc hrun => simp at hinc
  | whileFalse hpc hrun => simp at hinc
  | invoke hpc =>
    obtain ⟨hrun, heq⟩ := hinv.2.2.2 hpc
    exact ⟨heq.symm, hrun, by simp [heq]⟩
  | settleOk hpc => simp at hinc
  | settleErr hpc => simp at hinc
  | extStop hpc => simp at hinc

/-- C3 (witness): from the initial state, one `while` test reaches the
call site with zero outstanding invocations; the `invoke` step then starts
invocation 1 with the loop running. -/
theorem c3_no_overlapping_invocations_witness :
    (⟨APc.call, true, 0, 0⟩ : ASt).settled = (⟨APc.call, true, 0, 0⟩ : ASt).invoked ∧
    (⟨APc.call, true, 0, 0⟩ : ASt).running = true ∧
    (⟨APc.wait, true, 1, 0⟩ : ASt).invoked ≤ (⟨APc.wait, true, 1, 0⟩ : ASt).settled + 1 := by
  exact c3_no_overlapping_invocations ⟨APc.call, true, 0, 0⟩ ⟨APc.wait, true, 1, 0⟩
    (Relation.ReflTransGen.single (AStep.whileTrue asyncInit rfl rfl))
    (AStep.invoke ⟨APc.call, true, 0, 0⟩ rfl) rfl

/-! ## Claim C4 — async loop failures without an `onError` handler -/

lemma asyncExec_step_ok (σ : ℕ → Except ℕ Unit) (xstop : ℕ → Bool)
    (onError : Option (ℕ → Option ℕ)) (fuel k : ℕ) (L : List ℕ)
    (hok : σ k = Except.ok ()) (hx : xstop k = false) :
    asyncExec σ xstop onError (fuel + 1) ⟨true, k, L, none⟩ =
      asyncExec σ xstop onError fuel ⟨true, k + 1, L, none⟩ := by
  simp [asyncExec, hok, hx]

lemma asyncExec_step_err_none (σ : ℕ → Except ℕ Unit) (xstop : ℕ → Bool)
    (fuel k : ℕ) (L : List ℕ) (e : ℕ)
    (herr : σ k = Except.error e) (hx : xstop k = false) :
    asyncExec σ xstop none (fuel + 1) ⟨true, k, L, none⟩ =
      asyncExec σ xstop none fuel ⟨false, k + 1, L, none⟩ := by
  simp [asyncExec, herr, hx]

lemma asyncExec_step_err_handler (σ : ℕ → Except ℕ Unit) (xstop : ℕ → Bool)
    (hf : ℕ → Option ℕ) (fuel k : ℕ) (L : List ℕ) (e : ℕ)
    (herr : σ k = Except.error e) (hx : xstop k = false) :
    asyncExec σ xstop (some hf) (fuel + 1) ⟨true, k, L, none⟩ =
      (match hf e with
       | none => asyncExec σ xstop (some hf) fuel ⟨false, k + 1, L ++ [e], none⟩
       | some e2 => ⟨false, k + 1, L ++ [e], some (Except.error e2)⟩) := by
  simp [asyncExec, herr, hx]

lemma asyncExec_stopped_resolves (σ : ℕ → Except ℕ Unit) (xstop : ℕ → Bool)
    (onError : Option (ℕ → Option ℕ)) (fuel k : ℕ) (L : List ℕ) :
    asyncExec σ xstop onError (fuel + 1) ⟨false, k, L, none⟩ =
      ⟨false, k, L, some (Except.ok ())⟩ := by
  simp [asyncExec]

/-- C4 (counterexample): per the claim, when `loopFn` rejects and no
`onError` handler was supplied, the promise returned by `start()` should
report the failure.  Running the loop with a first iteration rejecting
with value 7 and no handler: the rejection is caught by the `catch`, the
optional call `onError?.(error)` is a no-op, the `while` exits — and the
promise returned by `start()` *fulfils* (`Except.ok ()`), it does not
reject with 7. -/
theorem c4_unhandled_failure_counterexample :
    asyncExec (fun _ => Except.error 7) (fun _ => false) none 5 aexecInit =
      ⟨false, 1, [], some (Except.ok ())⟩ ∧
    some (Except.ok ()) ≠ some (Except.error (7 : ℕ) : Except ℕ Unit) := by
  constructor
  · rw [show aexecInit = (⟨true, 0, [], none⟩ : AExec) from rfl]
    rw [asyncExec_step_err_none (fun _ => Except.error 7) (fun _ => false) 4 0 [] 7 rfl rfl]
    rw [asyncExec_stopped_resolves]
  · simp

/-- C4 (amended): when an iteration of `ControlledLoopAsync`'s `loopFn`
rejects and no `onError` handler was supplied, the loop stops and the
failure is *silently absorbed*, exactly as in the synchronous loop and
timer: the promise returned by `start()` fulfils normally and reports
nothing.  (The failure surfaces through `start()`'s promise only when a
supplied `onError` handler itself throws — see C7.) -/
theorem c4_unhandled_failure_absorbed (σ : ℕ → Except ℕ Unit) (xstop : ℕ → Bool)
    (n e fuel : ℕ)
    (Hok : ∀ i, i < n → σ i = Except.ok ()) (Herr : σ n = Except.error e)
    (Hx : ∀ i, xstop i = false) (hfuel : n + 2 ≤ fuel) :
    asyncExec σ xstop none fuel aexecInit =
      ⟨false, n + 1, [], some (Except.ok ())⟩ := by
  have main : ∀ fuel k, k ≤ n → n + 2 - k ≤ fuel →
      asyncExec σ xstop none fuel ⟨true, k, [], none⟩ =
        ⟨false, n + 1, [], some (Except.ok ())⟩ := by
    intro fuel
    induction fuel with
    | zero =>
      intro k hk hf
      omega
    | succ fuel ih =>
      intro k hk hf
      rcases Nat.lt_or_ge k n with hkn | hkn
      · rw [asyncExec_step_ok σ xstop none fuel k [] (Hok k hkn) (Hx k)]
        exact ih (k + 1) (by omega) (by omega)
      · have hkeq : k = n := by omega
        subst hkeq
        rw [asyncExec_step_err_none σ xstop fuel k [] e Herr (Hx k)]
        obtain ⟨fuel', rfl⟩ : ∃ f, fuel = f + 1 := ⟨fuel - 1, by omega⟩
        rw [asyncExec_stopped_resolves]
  exact main fuel 0 (by omega) (by omega)

/-- C4 (witness): one successful iteration, then a rejection with value 7
and no handler — within 3 scheduler turns the loop has stopped with
`start()`'s promise fulfilled. -/
theorem c4_unhandled_failure_absorbed_witness :
    asyncExec (fun i => if i = 0 then Except.ok () else Except.error 7) (fun _ => false)
        none 3 aexecInit =
      ⟨false, 2, [], some (Except.ok ())⟩ := by
  exact c4_unhandled_failure_absorbed (fun i => if i = 0 then Except.ok () else Except.error 7)
    (fun _ => false) 1 7 3
    (fun i hi => by
      have h0 : i = 0 := by omega
      subst h0
      rfl)
    rfl (fun _ => rfl) (by omega)

/-! ## Claim C5 — `stop()` makes pending scheduled callbacks inert -/

/-- Any sequence of events that contains no `start` leaves a stopped timer
stopped and never calls `onTick`. -/
lemma timerRun_stopped (θ : ℕ → Option ℕ) (onError : Option (ℕ → Option ℕ)) :
    ∀ (evs : List TimerEv) (st : TimerSt), st.startTime = none →
      (∀ ev ∈ evs, ∀ now, ev ≠ TimerEv.start now) →
      (timerRun θ onError evs st).ticks = st.ticks ∧
      (timerRun θ onError evs st).startTime = none := by
  intro evs
  induction evs with
  | nil =>
    intro st hst _
    exact ⟨rfl, hst⟩
  | cons ev evs ih =>
    intro st hst hevs
    have hev := hevs ev (List.mem_cons_self ev evs)
    have hevs' : ∀ ev' ∈ evs, ∀ now, ev' ≠ TimerEv.start now :=
      fun ev' hm => hevs ev' (List.mem_cons_of_mem ev hm)
    cases ev with
    | start now => exact absurd rfl (hev now)
    | stop =>
      have := ih (timerStop st) rfl hevs'
      simpa [timerRun, timerStepEv, timerStop] using this
    | fire t =>
      have hfire : (timerFire θ onError st t).ticks = st.ticks ∧
          (timerFire θ onError st t).startTime = none := by
        cases hp : st.pending with
        | none => simp [timerFire, hp, hst]
        | some rid =>
          simp [timerFire, hp, timerProcessTick, TimerSt.isRunning, hst]
      have := ih (timerFire θ onError st t) hfire.2 hevs'
      simp only [timerRun, timerStepEv] at *
      exact ⟨by rw [this.1, hfire.1], this.2⟩
    | setInterval ms =>
      have hset : (timerSetTargetTickIntervalMs st ms).ticks = st.ticks ∧
          (timerSetTargetTickIntervalMs st ms).startTime = none := by
        simp [timerSetTargetTickIntervalMs, TimerSt.isRunning, hst]
      have := ih (timerSetTargetTickIntervalMs st ms) hset.2 hevs'
      simp only [timerRun, timerStepEv] at *
      exact ⟨by rw [this.1, hset.1], this.2⟩

/-- C5: stopping an engine makes pending scheduled callbacks inert.
For `ControlledLoopSync`: the resumption wrapper scheduled by `delay`
re-checks `isRunning` and does nothing on a stopped loop, so the firing of
a pending resumption never invokes `loopFn`.  For `TimerSync`:
`processTick` checks `runId` equality (a stale callback from a previous run
does nothing), and on a stopped timer no sequence of fire / stop /
setInterval events — only a new `start()` — can ever increase the `onTick`
call count. -/
theorem c5_stale_callback_inert (cycle : SyncSt → SyncSt) (s : SyncSt)
    (θ : ℕ → Option ℕ) (onError : Option (ℕ → Option ℕ)) (st st' : TimerSt)
    (evs : List TimerEv) (t : ℚ) (rid : ℕ) :
    (s.running = false → syncResume cycle s = s) ∧
    (rid ≠ st.runId → timerProcessTick θ onError st t rid = st) ∧
    (st'.startTime = none → (∀ ev ∈ evs, ∀ now, ev ≠ TimerEv.start now) →
      (timerRun θ onError evs st').ticks = st'.ticks) := by
  refine ⟨?_, ?_, ?_⟩
  · intro hrun
    simp [syncResume, hrun]
  · intro hrid
    simp [timerProcessTick, hrid]
  · intro hst hevs
    exact (timerRun_stopped θ onError evs st' hst hevs).1

/-- C5 (witness): a stopped sync loop ignores its pending resumption; a
stale `runId` is ignored; a stopped timer processes a pending fire and a
stop without any `onTick` call. -/
theorem c5_stale_callback_inert_witness :
    syncResume id ⟨0, 0, 0, false, []⟩ = ⟨0, 0, 0, false, []⟩ ∧
    timerProcessTick (fun _ => none) none ⟨1, some 0, 1000, some 0, some 1, 0, []⟩ 5 7 =
      ⟨1, some 0, 1000, some 0, some 1, 0, []⟩ ∧
    (timerRun (fun _ => none) none [TimerEv.fire 5, TimerEv.stop]
      ⟨1, none, 1000, some 0, some 1, 0, []⟩).ticks = 0 := by
  have h := c5_stale_callback_inert id ⟨0, 0, 0, false, []⟩ (fun _ => none) none
    ⟨1, some 0, 1000, some 0, some 1, 0, []⟩ ⟨1, none, 1000, some 0, some 1, 0, []⟩
    [TimerEv.fire 5, TimerEv.stop] 5 7
  refine ⟨h.1 rfl, h.2.1 (by decide), ?_⟩
  have h3 := h.2.2 rfl (by
    intro ev hm now
    simp at hm
    rcases hm with h' | h' <;> subst h' <;> simp)
  simpa using h3

/-! ## Claim C6 — failure handling: stop first, `onError` exactly once -/

lemma syncLoopBody_throw (hf : ℕ → Option ℕ) (ω : ℕ → SyncOutcome) (s : SyncSt) (e : ℕ)
    (hthrow : (ω s.calls).throws = some e) :
    syncLoopBody (some hf) ω s =
      ⟨s.time + (ω s.calls).cost, s.iters + 1, s.calls + 1, false, s.errLog ++ [e]⟩ := by
  simp [syncLoopBody, hthrow, syncStop, syncInvokeOnError]

lemma runSyncCycle_not_running (onError : Option (ℕ → Option ℕ)) (ω : ℕ → SyncOutcome)
    (B start : ℚ) (fuel : ℕ) (s : SyncSt) (h : s.running = false) :
    runSyncCycle onError ω B start (fuel + 1) s = (s, CycleExit.exited) := by
  rw [runSyncCycle_succ, if_neg (by simp [h])]

/-- After a throwing `loopFn` call the cycle performs no further calls:
whether the budget check yields or the `while` re-check exits, the final
state is the post-`catch` state. -/
lemma runSyncCycle_throw (hf : ℕ → Option ℕ) (ω : ℕ → SyncOutcome) (B start : ℚ)
    (fuel : ℕ) (s : SyncSt) (e : ℕ)
    (hs : s.running = true) (hthrow : (ω s.calls).throws = some e) (hfuel : 2 ≤ fuel) :
    (runSyncCycle (some hf) ω B start fuel s).1 =
      ⟨s.time + (ω s.calls).cost, s.iters + 1, s.calls + 1, false, s.errLog ++ [e]⟩ := by
  obtain ⟨f, rfl⟩ : ∃ f, fuel = f + 2 := ⟨fuel - 2, by omega⟩
  rw [show f + 2 = (f + 1) + 1 from rfl, runSyncCycle_succ, if_pos hs,
    syncLoopBody_throw hf ω s e hthrow]
  dsimp only
  by_cases hb : haveTimeForAnotherLoop start (s.time + (ω s.calls).cost) (s.iters + 1) B = true
  · rw [if_pos hb, runSyncCycle_not_running _ _ _ _ f _ rfl]
  · rw [if_neg hb]

lemma timerFire_throw (θ : ℕ → Option ℕ) (hf : ℕ → Option ℕ) (st : TimerSt)
    (t : ℚ) (e : ℕ) (s0 : ℚ)
    (hrunning : st.startTime = some s0) (hpend : st.pending = some st.runId)
    (hthrow : θ st.ticks = some e) :
    timerFire θ (some hf) st t =
      ⟨st.runId, none, st.intervalMs, none, none, st.ticks + 1, st.errLog ++ [e]⟩ := by
  simp [timerFire, hpend, timerProcessTick, TimerSt.isRunning, hrunning, hthrow,
    timerStop, timerInvokeOnError]

/-- Run of the asynchronous loop whose `n`-th iteration fails, with a
handler that itself returns normally: the loop stops, the handler receives
exactly the rejected value once, and `start()`'s promise fulfils. -/
lemma asyncExec_failure_handled (σ : ℕ → Except ℕ Unit) (xstop : ℕ → Bool)
    (hf : ℕ → Option ℕ) (n e fuel : ℕ)
    (Hok : ∀ i, i < n → σ i = Except.ok ()) (Herr : σ n = Except.error e)
    (Hfe : hf e = none) (Hx : ∀ i, xstop i = false) (hfuel : n + 2 ≤ fuel) :
    asyncExec σ xstop (some hf) fuel aexecInit =
      ⟨false, n + 1, [e], some (Except.ok ())⟩ := by
  have main : ∀ fuel k, k ≤ n → n + 2 - k ≤ fuel →
      asyncExec σ xstop (some hf) fuel ⟨true, k, [], none⟩ =
        ⟨false, n + 1, [e], some (Except.ok ())⟩ := by
    intro fuel
    induction fuel with
    | zero =>
      intro k hk hfu
      omega
    | succ fuel ih =>
      intro k hk hfu
      rcases Nat.lt_or_ge k n with hkn | hkn
      · rw [asyncExec_step_ok σ xstop (some hf) fuel k [] (Hok k hkn) (Hx k)]
        exact ih (k + 1) (by omega) (by omega)
      · have hkeq : k = n := by omega
        subst hkeq
        rw [asyncExec_step_err_handler σ xstop hf fuel k [] e Herr (Hx k), Hfe]
        obtain ⟨fuel', rfl⟩ : ∃ f, fuel = f + 1 := ⟨fuel - 1, by omega⟩
        rw [show ([] : List ℕ) ++ [e] = [e] from rfl, asyncExec_stopped_resolves]
  exact main fuel 0 (by omega) (by omega)

/-- C6: in all three engines, when a user callback fails the engine is
stopped and the supplied `onError` handler is invoked exactly once with
exactly the thrown/rejected value, and no further `loopFn`/`onTick` calls
occur.  (In the models, `syncStop`/`timerStop`/the `running := false`
update are applied to the state *before* the handler call is recorded,
mirroring the `this.stop(); this.config.onError?.(error)` source order.)
For the synchronous loop: the cycle ends right after the throwing call with
`errLog` extended by exactly `[e]` and the loop stopped.  For the timer: a
pending tick whose `onTick` throws leaves the timer stopped, unscheduled,
with exactly `[e]` delivered.  For the asynchronous loop: the run stops at
the failing iteration, delivers exactly `[e]`, and performs no further
invocations. -/
theorem c6_onerror_exactly_once :
    (∀ (hf : ℕ → Option ℕ) (ω : ℕ → SyncOutcome) (B start : ℚ) (fuel : ℕ)
        (s : SyncSt) (e : ℕ),
      s.running = true → (ω s.calls).throws = some e → 2 ≤ fuel →
      (runSyncCycle (some hf) ω B start fuel s).1.errLog = s.errLog ++ [e] ∧
      (runSyncCycle (some hf) ω B start fuel s).1.running = false ∧
      (runSyncCycle (some hf) ω B start fuel s).1.calls = s.calls + 1) ∧
    (∀ (θ : ℕ → Option ℕ) (hf : ℕ → Option ℕ) (st : TimerSt) (t : ℚ) (e : ℕ) (s0 : ℚ),
      st.startTime = some s0 → st.pending = some st.runId → θ st.ticks = some e →
      (timerFire θ (some hf) st t).errLog = st.errLog ++ [e] ∧
      (timerFire θ (some hf) st t).startTime = none ∧
      (timerFire θ (some hf) st t).ticks = st.ticks + 1 ∧
      (timerFire θ (some hf) st t).pending = none) ∧
    (∀ (σ : ℕ → Except ℕ Unit) (xstop : ℕ → Bool) (hf : ℕ → Option ℕ) (n e fuel : ℕ),
      (∀ i, i < n → σ i = Except.ok ()) → σ n = Except.error e → hf e = none →
      (∀ i, xstop i = false) → n + 2 ≤ fuel →
      asyncExec σ xstop (some hf) fuel aexecInit =
        ⟨false, n + 1, [e], some (Except.ok ())⟩) := by
  refine ⟨?_, ?_, ?_⟩
  · intro hf ω B start fuel s e hs hthrow hfuel
    rw [runSyncCycle_throw hf ω B start fuel s e hs hthrow hfuel]
    exact ⟨rfl, rfl, rfl⟩
  · intro θ hf st t e s0 hrunning hpend hthrow
    rw [timerFire_throw θ hf st t e s0 hrunning hpend hthrow]
    exact ⟨rfl, rfl, rfl, rfl⟩
  · intro σ xstop hf n e fuel Hok Herr Hfe Hx hfuel
    exact asyncExec_failure_handled σ xstop hf n e fuel Hok Herr Hfe Hx hfuel

/-- C6 (witness): concrete failing runs of all three engines.  Sync loop:
the single call throws value 9 — the handler receives `[9]`, the loop is
stopped.  Timer: the first tick throws 4.  Async loop: the first iteration
rejects with 6 and the handler returns normally. -/
theorem c6_onerror_exactly_once_witness :
    (runSyncCycle (some fun _ => none) (fun _ => ⟨1, false, some 9⟩) 10 0 2
        ⟨0, 0, 0, true, []⟩).1.errLog = [] ++ [9] ∧
    (timerFire (fun _ => some 4) (some fun _ => none)
        ⟨1, some 0, 1000, some 0, some 1, 0, []⟩ 1000).errLog = [] ++ [4] ∧
    asyncExec (fun _ => Except.error 6) (fun _ => false) (some fun _ => none) 2 aexecInit =
      ⟨false, 0 + 1, [6], some (Except.ok ())⟩ := by
  refine ⟨?_, ?_, ?_⟩
  · exact (c6_onerror_exactly_once.1 (fun _ => none) (fun _ => ⟨1, false, some 9⟩) 10 0 2
      ⟨0, 0, 0, true, []⟩ 9 rfl rfl (by omega)).1
  · exact (c6_onerror_exactly_once.2.1 (fun _ => some 4) (fun _ => none)
      ⟨1, some 0, 1000, some 0, some 1, 0, []⟩ 1000 4 0 rfl rfl rfl).1
  · exact c6_onerror_exactly_once.2.2 (fun _ => Except.error 6) (fun _ => false)
      (fun _ => none) 0 6 2 (fun i hi => by omega) rfl rfl (fun _ => rfl) (by omega)

/-! ## Claim C7 — a throwing `onError` handler -/

/-- In the synchronous loop the guarded `onError` call discards whatever
the handler itself throws: the cycle's behaviour does not depend on it. -/
lemma runSyncCycle_handler_irrelevant (hf1 hf2 : ℕ → Option ℕ) (ω : ℕ → SyncOutcome)
    (B start : ℚ) : ∀ (fuel : ℕ) (s : SyncSt),
    runSyncCycle (some hf1) ω B start fuel s = runSyncCycle (some hf2) ω B start fuel s := by
  intro fuel
  induction fuel with
  | zero =>
    intro s
    rfl
  | succ fuel ih =>
    intro s
    rw [runSyncCycle_succ, runSyncCycle_succ,
      show syncLoopBody (some hf1) ω s = syncLoopBody (some hf2) ω s from rfl, ih]

/-- Likewise for the timer: the guarded handler call in `processTick`
discards a thrown value, so the run does not depend on it. -/
lemma timerRun_handler_irrelevant (θ : ℕ → Option ℕ) (hf1 hf2 : ℕ → Option ℕ) :
    ∀ (evs : List TimerEv) (st : TimerSt),
    timerRun θ (some hf1) evs st = timerRun θ (some hf2) evs st := by
  intro evs
  induction evs with
  | nil =>
    intro st
    rfl
  | cons ev evs ih =>
    intro st
    show timerRun θ (some hf1) evs (timerStepEv θ (some hf1) st ev) = _
    rw [show timerStepEv θ (some hf1) st ev = timerStepEv θ (some hf2) st ev from rfl, ih]
    rfl

/-- In the asynchronous loop the handler call is *not* guarded: a value it
throws unwinds the `start()` coroutine and rejects its promise. -/
lemma asyncExec_secondary_failure (σ : ℕ → Except ℕ Unit) (xstop : ℕ → Bool)
    (hf : ℕ → Option ℕ) (n e e2 fuel : ℕ)
    (Hok : ∀ i, i < n → σ i = Except.ok ()) (Herr : σ n = Except.error e)
    (Hfe : hf e = some e2) (Hx : ∀ i, xstop i = false) (hfuel : n + 1 ≤ fuel) :
    asyncExec σ xstop (some hf) fuel aexecInit =
      ⟨false, n + 1, [e], some (Except.error e2)⟩ := by
  have main : ∀ fuel k, k ≤ n → n + 1 - k ≤ fuel →
      asyncExec σ xstop (some hf) fuel ⟨true, k, [], none⟩ =
        ⟨false, n + 1, [e], some (Except.error e2)⟩ := by
    intro fuel
    induction fuel with
    | zero =>
      intro k hk hfu
      omega
    | succ fuel ih =>
      intro k hk hfu
      rcases Nat.lt_or_ge k n with hkn | hkn
      · rw [asyncExec_step_ok σ xstop (some hf) fuel k [] (Hok k hkn) (Hx k)]
        exact ih (k + 1) (by omega) (by omega)
      · have hkeq : k = n := by omega
        subst hkeq
        rw [asyncExec_step_err_handler σ xstop hf fuel k [] e Herr (Hx k), Hfe]
        simp
  exact main fuel 0 (by omega) (by omega)

/-- C7: when the `onError` handler itself throws, `ControlledLoopSync` and
`TimerSync` catch and discard the secondary failure without remediation —
the run is observably identical whatever the handler throws — whereas in
`ControlledLoopAsync` the handler call is unguarded and the secondary value
propagates out through the promise returned by `start()`, which rejects
with exactly that value (the loop itself stays stopped). -/
theorem c7_secondary_failure_policy :
    (∀ (hf1 hf2 : ℕ → Option ℕ) (ω : ℕ → SyncOutcome) (B start : ℚ) (fuel : ℕ)
        (s : SyncSt),
      runSyncCycle (some hf1) ω B start fuel s = runSyncCycle (some hf2) ω B start fuel s) ∧
    (∀ (θ : ℕ → Option ℕ) (hf1 hf2 : ℕ → Option ℕ) (evs : List TimerEv) (st : TimerSt),
      timerRun θ (some hf1) evs st = timerRun θ (some hf2) evs st) ∧
    (∀ (σ : ℕ → Except ℕ Unit) (xstop : ℕ → Bool) (hf : ℕ → Option ℕ) (n e e2 fuel : ℕ),
      (∀ i, i < n → σ i = Except.ok ()) → σ n = Except.error e → hf e = some e2 →
      (∀ i, xstop i = false) → n + 1 ≤ fuel →
      asyncExec σ xstop (some hf) fuel aexecInit =
        ⟨false, n + 1, [e], some (Except.error e2)⟩) := by
  refine ⟨?_, ?_, ?_⟩
  · intro hf1 hf2 ω B start fuel s
    exact runSyncCycle_handler_irrelevant hf1 hf2 ω B start fuel s
  · intro θ hf1 hf2 evs st
    exact timerRun_handler_irrelevant θ hf1 hf2 evs st
  · intro σ xstop hf n e e2 fuel Hok Herr Hfe Hx hfuel
    exact asyncExec_secondary_failure σ xstop hf n e e2 fuel Hok Herr Hfe Hx hfuel

/-- C7 (witness): a sync cycle behaves identically under a throwing and a
non-throwing handler; likewise a timer run; and an async run whose first
iteration rejects with 6 under a handler throwing 13 ends with `start()`'s
promise rejected with 13. -/
theorem c7_secondary_failure_policy_witness :
    runSyncCycle (some fun _ => some 13) (fun _ => ⟨1, false, some 9⟩) 10 0 2
        ⟨0, 0, 0, true, []⟩ =
      runSyncCycle (some fun _ => none) (fun _ => ⟨1, false, some 9⟩) 10 0 2
        ⟨0, 0, 0, true, []⟩ ∧
    timerRun (fun _ => some 4) (some fun _ => some 13) [TimerEv.fire 1000]
        ⟨1, some 0, 1000, some 0, some 1, 0, []⟩ =
      timerRun (fun _ => some 4) (some fun _ => none) [TimerEv.fire 1000]
        ⟨1, some 0, 1000, some 0, some 1, 0, []⟩ ∧
    asyncExec (fun _ => Except.error 6) (fun _ => false) (some fun _ => some 13) 1 aexecInit =
      ⟨false, 0 + 1, [6], some (Except.error 13)⟩ := by
  refine ⟨?_, ?_, ?_⟩
  · exact c7_secondary_failure_policy.1 (fun _ => some 13) (fun _ => none)
      (fun _ => ⟨1, false, some 9⟩) 10 0 2 ⟨0, 0, 0, true, []⟩
  · exact c7_secondary_failure_policy.2.1 (fun _ => some 4) (fun _ => some 13)
      (fun _ => none) [TimerEv.fire 1000] ⟨1, some 0, 1000, some 0, some 1, 0, []⟩
  · exact c7_secondary_failure_policy.2.2 (fun _ => Except.error 6) (fun _ => false)
      (fun _ => some 13) 0 6 13 1 (fun i hi => by omega) rfl rfl (fun _ => rfl) (by omega)

/-! ## Claim C9 — `waitForCondition` timeout -/

lemma runWait_settled (π : ℕ → PredOut) (I : ℚ) :
    ∀ (fuel : ℕ) (st : WaitSt), st.intervalNext = none → st.timeoutAt = none →
      runWait π I fuel st = st := by
  intro fuel
  induction fuel with
  | zero =>
    intro st _ _
    rfl
  | succ fuel ih =>
    intro st h1 h2
    show runWait π I fuel (waitStep π I st) = st
    have hstep : waitStep π I st = st := by
      rw [waitStep, h1, h2]
    rw [hstep]
    exact ih st h1 h2

/-- With a predicate that never returns a truthy value, a settled
`waitForCondition` run has fired its timeout: the result is the Timeout
rejection, both timers are cleared, and the clock stands at the timeout
duration. -/
lemma runWait_timeout (π : ℕ → PredOut) (I T : ℚ) (Hf : ∀ k, π k = PredOut.falsy) :
    ∀ (fuel : ℕ) (st : WaitSt) (r : WaitRes), st.timeoutAt = some T →
      (∃ ti, st.intervalNext = some ti) → st.result = none →
      (runWait π I fuel st).result = some r →
      r = WaitRes.timedOut ∧ (runWait π I fuel st).intervalNext = none ∧
      (runWait π I fuel st).timeoutAt = none ∧ (runWait π I fuel st).time = T := by
  intro fuel
  induction fuel with
  | zero =>
    intro st r htt hti hres hr
    rw [show runWait π I 0 st = st from rfl] at hr
    rw [hres] at hr
    cases hr
  | succ fuel ih =>
    intro st r htt hti hres hr
    obtain ⟨ti, hti⟩ := hti
    by_cases hle : ti ≤ T
    · have hstep : waitStep π I st = ⟨ti, some (ti + I), some T, st.callIdx + 1, none⟩ := by
        simp [waitStep, hti, htt, hres, hle, Hf st.callIdx]
      have hrw : runWait π I (fuel + 1) st =
          runWait π I fuel ⟨ti, some (ti + I), some T, st.callIdx + 1, none⟩ := by
        show runWait π I fuel (waitStep π I st) = _
        rw [hstep]
      rw [hrw] at hr ⊢
      exact ih _ r rfl ⟨ti + I, rfl⟩ rfl hr
    · have hstep : waitStep π I st = ⟨T, none, none, st.callIdx, some WaitRes.timedOut⟩ := by
        simp [waitStep, hti, htt, hle]
      have hrw : runWait π I (fuel + 1) st =
          ⟨T, none, none, st.callIdx, some WaitRes.timedOut⟩ := by
        show runWait π I fuel (waitStep π I st) = _
        rw [hstep]
        exact runWait_settled π I fuel _ rfl rfl
      rw [hrw] at hr ⊢
      have hr' : some WaitRes.timedOut = some r := hr
      injection hr' with hrr
      subst hrr
      exact ⟨rfl, rfl, rfl, rfl⟩

/-- C9: for every run of `waitForCondition` whose predicate never returns
a truthy value, if the operation settles at all, it rejects with the
Timeout error at the (validated) timeout duration, the interval timer has
been cancelled by the timeout callback, and zero pending timers remain. -/
theorem c9_timeout_rejects_and_clears (π : ℕ → PredOut)
    (intervalMs timeoutMs : Option JSNum) (fuel : ℕ) (r : WaitRes)
    (Hf : ∀ k, π k = PredOut.falsy)
    (hres : (waitForConditionRun π intervalMs timeoutMs fuel).result = some r) :
    r = WaitRes.timedOut ∧
    (waitForConditionRun π intervalMs timeoutMs fuel).intervalNext = none ∧
    (waitForConditionRun π intervalMs timeoutMs fuel).timeoutAt = none ∧
    (waitForConditionRun π intervalMs timeoutMs fuel).time = safeDelayMs timeoutMs 1000 := by
  exact runWait_timeout π (safeDelayMs intervalMs 16) (safeDelayMs timeoutMs 1000) Hf fuel
    (waitInit (safeDelayMs intervalMs 16) (safeDelayMs timeoutMs 1000)) r rfl
    ⟨safeDelayMs intervalMs 16, rfl⟩ rfl hres

/-- C9 (witness): the spec scenario `intervalMs = 4`, `timeoutMs = 10`,
predicate always falsy — the predicate polls at 4 and 8, the timeout fires
at 10: rejection with the Timeout error and zero pending timers. -/
theorem c9_timeout_rejects_and_clears_witness :
    (waitForConditionRun (fun _ => PredOut.falsy) (some (JSNum.fin 4)) (some (JSNum.fin 10))
        4).result = some WaitRes.timedOut ∧
    (waitForConditionRun (fun _ => PredOut.falsy) (some (JSNum.fin 4)) (some (JSNum.fin 10))
        4).intervalNext = none ∧
    (waitForConditionRun (fun _ => PredOut.falsy) (some (JSNum.fin 4)) (some (JSNum.fin 10))
        4).timeoutAt = none ∧
    (waitForConditionRun (fun _ => PredOut.falsy) (some (JSNum.fin 4)) (some (JSNum.fin 10))
        4).time = 10 := by
  have hI : safeDelayMs (some (JSNum.fin 4)) 16 = 4 := by
    norm_num [safeDelayMs, isUnsafeNumber, jsRound]
  have hT : safeDelayMs (some (JSNum.fin 10)) 1000 = 10 := by
    norm_num [safeDelayMs, isUnsafeNumber, jsRound]
  have hrun : waitForConditionRun (fun _ => PredOut.falsy) (some (JSNum.fin 4))
      (some (JSNum.fin 10)) 4 = ⟨10, none, none, 2, some WaitRes.timedOut⟩ := by
    show runWait (fun _ => PredOut.falsy) (safeDelayMs (some (JSNum.fin 4)) 16) 4
      (waitInit (safeDelayMs (some (JSNum.fin 4)) 16)
        (safeDelayMs (some (JSNum.fin 10)) 1000)) = _
    rw [hI, hT]
    show runWait (fun _ => PredOut.falsy) 4 3
      (waitStep (fun _ => PredOut.falsy) 4 ⟨0, some 4, some 10, 0, none⟩) = _
    have s1 : waitStep (fun _ => PredOut.falsy) 4 ⟨0, some 4, some 10, 0, none⟩ =
        ⟨4, some 8, some 10, 1, none⟩ := by
      norm_num [waitStep]
    rw [s1]
    show runWait (fun _ => PredOut.falsy) 4 2
      (waitStep (fun _ => PredOut.falsy) 4 ⟨4, some 8, some 10, 1, none⟩) = _
    have s2 : waitStep (fun _ => PredOut.falsy) 4 ⟨4, some 8, some 10, 1, none⟩ =
        ⟨8, some 12, some 10, 2, none⟩ := by
      norm_num [waitStep]
    rw [s2]
    show runWait (fun _ => PredOut.falsy) 4 1
      (waitStep (fun _ => PredOut.falsy) 4 ⟨8, some 12, some 10, 2, none⟩) = _
    have s3 : waitStep (fun _ => PredOut.falsy) 4 ⟨8, some 12, some 10, 2, none⟩ =
        ⟨10, none, none, 2, some WaitRes.timedOut⟩ := by
      norm_num [waitStep]
    rw [s3]
    exact runWait_settled (fun _ => PredOut.falsy) 4 1 _ rfl rfl
  have h := c9_timeout_rejects_and_clears (fun _ => PredOut.falsy) (some (JSNum.fin 4))
    (some (JSNum.fin 10)) 4 WaitRes.timedOut (fun _ => rfl) (by rw [hrun])
  exact ⟨by rw [hrun], h.2.1, h.2.2.1, by rw [h.2.2.2, hT]⟩

/-! ## Machine-level schedule facts supporting the C1 closed form -/

/-- Starting a freshly constructed timer at frame time `now` schedules
against a `null` `_currentIntervalStartTime`: the stored interval start is
`nextTargetTime none T now - T`. -/
lemma timerStart_fresh (T now : ℚ) :
    timerStart (timerInit T) now =
      ⟨1, some now, T, some (nextTargetTime none T now - T), some 1, 0, []⟩ := by
  simp [timerStart, timerInit, TimerSt.isRunning, timerScheduleTick]

/-- A live pending tick whose `onTick` returns normally reschedules with
`_currentIntervalStartTime` already reset to `null` by the raf callback:
the new pending interval start is `nextTargetTime none intervalMs t - intervalMs`,
where `t` is the frame time at which the tick fired.  This is the recurrence
captured by `timerTargets`. -/
lemma timerFire_ok_schedules (θ : ℕ → Option ℕ) (onError : Option (ℕ → Option ℕ))
    (st : TimerSt) (t s0 : ℚ)
    (hrunning : st.startTime = some s0) (hpend : st.pending = some st.runId)
    (hok : θ st.ticks = none) :
    timerFire θ onError st t =
      ⟨st.runId, st.startTime, st.intervalMs,
       some (nextTargetTime none st.intervalMs t - st.intervalMs), some st.runId,
       st.ticks + 1, st.errLog⟩ := by
  simp [timerFire, hpend, timerProcessTick, TimerSt.isRunning, hrunning, hok,
    timerScheduleTick]
